import Mathlib

/-!
# NotifyByPopup: the freedesktop notification backend of KNotifications

A shallow embedding of `src/notifybypopup.cpp`.

* A `KNotification*` is an address (`Nat`); the object behind it is read through
  `Env.object`.  A `QPointer<KNotification>` is an `Option Nat`, `none` being the
  null pointer a `QPointer` turns into once its object has been destroyed.
* `QHash<uint, QPointer<KNotification>>` is an association list.  The iteration
  order of a `QHash` is unspecified; the list order stands for it.
* `QVariantMap` is an association list with unique keys kept by `QVariantMap.set`.
* Every member function returns the new private state together with the list of
  things it did to the outside world, in program order (`Effect`): D-Bus calls and
  Qt signals.  Slots connected to those signals run outside this file and are
  therefore further calls of the model, not part of the call that emitted them.
* `uint` values are `Nat`; an `int` converted to `uint` is reduced modulo `2^32`.
-/

namespace KNotifications

/-! ## Qt values -/

/-- The values a `QVariant` holds in this file. -/
inductive QVariant where
  | string (s : String)
  | int (i : Int)
  | bool (b : Bool)
  | stringList (l : List String)
  | image (bytes : List Nat)
  deriving DecidableEq, Repr

/-- A `QVariantMap` (`QMap<QString, QVariant>`), as an association list. -/
abbrev QVariantMap := List (String × QVariant)

/-- The assignment `map[key] = value`: overwrite the entry of `key`, or add one. -/
def QVariantMap.set : QVariantMap → String → QVariant → QVariantMap
  | [], key, value => [(key, value)]
  | (k, v) :: rest, key, value =>
      if k = key then (k, value) :: rest else (k, v) :: QVariantMap.set rest key value

/-- The lookup `map.value(key)`, `none` when the map has no such key. -/
def QVariantMap.value : QVariantMap → String → Option QVariant
  | [], _ => none
  | (k, v) :: rest, key => if k = key then some v else QVariantMap.value rest key

/-- The loop `for (it = hints.constBegin(); it != hints.constEnd(); ++it)
hintsMap[it.key()] = it.value();` of `sendNotificationToServer`. -/
def mergeHints : QVariantMap → QVariantMap → QVariantMap
  | hintsMap, [] => hintsMap
  | hintsMap, (k, v) :: rest => mergeHints (QVariantMap.set hintsMap k v) rest

/-- The character of a decimal digit `d < 10`. -/
def digitChar (d : Nat) : Char := Char.ofNat (48 + d)

/-- The decimal digits of `n`, most significant first, put in front of `acc`.  Each step
produces one digit; `steps` bounds their number, and `n + 1` steps are always enough. -/
def decimalDigitsCore : Nat → Nat → List Char → List Char
  | 0, _, acc => acc
  | steps + 1, n, acc =>
      if n < 10 then digitChar n :: acc
      else decimalDigitsCore steps (n / 10) (digitChar (n % 10) :: acc)

/-- The decimal digits of a number, most significant first. -/
def decimalDigits (n : Nat) : List Char := decimalDigitsCore (n + 1) n []

/-- The call `QString::number(n)` for a non-negative `n`: its decimal representation. -/
def QString.number (n : Nat) : String := String.mk (decimalDigits n)

/-- The value of a decimal digit character, `none` for any other character. -/
def digitValue (c : Char) : Option Nat :=
  if 48 ≤ c.toNat ∧ c.toNat ≤ 57 then some (c.toNat - 48) else none

/-- Read a run of decimal digits, continuing from the value `acc`; `none` as soon as a
character is not a digit. -/
def parseDigits : List Char → Nat → Option Nat
  | [], acc => some acc
  | c :: rest, acc =>
      match digitValue c with
      | some d => parseDigits rest (10 * acc + d)
      | none => none

/-- The characters `QChar::isSpace` accepts among the ASCII ones. -/
def isSpace (c : Char) : Bool :=
  c.toNat = 32 || (9 ≤ c.toNat && c.toNat ≤ 13)

/-- The string without its leading and trailing white space (`QString::trimmed`). -/
def trimmed (cs : List Char) : List Char :=
  ((cs.dropWhile isSpace).reverse.dropWhile isSpace).reverse

/-- The call `QString::toUInt()` (base 10), after the Qt documentation: the number the string
spells, where white space around it and one leading plus sign are accepted, and `0` when the
conversion fails, which includes a value that does not fit in 32 bits. -/
def QString.toUInt (s : String) : Nat :=
  let body : List Char :=
    match trimmed s.data with
    | '+' :: rest => rest
    | cs => cs
  match body with
  | [] => 0
  | c :: rest =>
      match parseDigits (c :: rest) 0 with
      | some v => if v < 4294967296 then v else 0
      | none => 0

/-- The conversion of an `int` to `uint`. -/
def toUInt32 (i : Int) : Nat := (i % 4294967296).toNat

/-! ## The notification object and its configuration -/

/-- The enumeration `KNotification::Urgency`. -/
inductive Urgency where
  | DefaultUrgency
  | LowUrgency
  | NormalUrgency
  | HighUrgency
  | CriticalUrgency
  deriving DecidableEq, Repr

/-- What the accessors of a `KNotification` return.  `pixmap` is `none` for a null pixmap and
otherwise the PNG bytes it is saved to. -/
structure KNotification where
  id : Int
  iconName : String
  title : String
  text : String
  defaultAction : String
  actions : List String
  appName : String
  eventId : String
  flags : Nat
  urls : List String
  urgency : Urgency
  hints : QVariantMap
  pixmap : Option (List Nat)
  deriving DecidableEq, Repr

/-- A `KNotifyConfig`: the application name, the event id and the entries of the events file,
each entry filed under its group and key. -/
structure KNotifyConfig where
  appname : String
  eventid : String
  eventsfile : List ((String × String) × String)
  deriving DecidableEq, Repr

/-- The call `KConfigGroup(file, group).hasKey(key)`. -/
def hasKey (file : List ((String × String) × String)) (group key : String) : Bool :=
  file.any (fun e => e.1 = (group, key))

/-- The call `KConfigGroup(file, group).readEntry(key, dflt)`. -/
def readEntry (file : List ((String × String) × String)) (group key dflt : String) : String :=
  match file.find? (fun e => e.1 = (group, key)) with
  | some e => e.2
  | none => dflt

/-- Everything `notifybypopup.cpp` reads from outside itself: the objects behind the
`KNotification` pointers, `KNotificationPlugin::stripRichText`,
`QGuiApplication::desktopFileName()`, `ImageConverter::variantForImage` applied to the image
read back from the PNG bytes, and the two `KNotification::NotificationFlag` bits it tests. -/
structure Env where
  object : Nat → KNotification
  stripRichText : String → String
  desktopFileName : String
  variantForImage : List Nat → QVariant
  Persistent : Nat
  SkipGrouping : Nat

/-! ## The D-Bus traffic and the signals -/

/-- The eight arguments of the `Notify` method call, in wire order. -/
structure NotifyArgs where
  app_name : String
  replaces_id : Nat
  app_icon : String
  summary : String
  body : String
  actions : List String
  hints : QVariantMap
  expire_timeout : Int
  deriving DecidableEq, Repr

/-- What a member function does to the outside world. -/
inductive Effect where
  /-- The `asyncCall` of `Notify`, whose watcher carries `notification` as `notificationObject`. -/
  | callNotify (notification : Nat) (args : NotifyArgs)
  /-- The `send` of `CloseNotification(id)`. -/
  | sendCloseNotification (id : Nat)
  /-- The `callWithCallback` of `GetCapabilities`. -/
  | callGetCapabilities
  /-- The signal `finished(notification)`, also emitted by `finish(notification)`. -/
  | finished (notification : Nat)
  /-- The signal `actionInvoked(id, action)`, with the values of the two argument expressions. -/
  | actionInvoked (id : Int) (action : Nat)
  /-- The call `n->close()`. -/
  | close (notification : Nat)
  deriving DecidableEq, Repr

/-- Whether the effect is a `Notify` call made for `notification`. -/
def Effect.isNotifyFor (notification : Nat) : Effect → Bool
  | Effect.callNotify n _ => n = notification
  | _ => false

/-- Whether the effect is a `Notify` call. -/
def Effect.isNotify : Effect → Bool
  | Effect.callNotify _ _ => true
  | _ => false

/-- Whether the effect is a `GetCapabilities` call. -/
def Effect.isGetCapabilities : Effect → Bool
  | Effect.callGetCapabilities => true
  | _ => false

/-! ## The private state -/

/-- The type `QHash<uint, QPointer<KNotification>>`. -/
abbrev NotificationHash := List (Nat × Option Nat)

/-- The call `hash.find(key)`: the value stored under `key`, `none` for `end()`. -/
def NotificationHash.find : NotificationHash → Nat → Option (Option Nat)
  | [], _ => none
  | (k, v) :: rest, key => if k = key then some v else NotificationHash.find rest key

/-- The call `hash.contains(key)`. -/
def NotificationHash.contains (hash : NotificationHash) (key : Nat) : Bool :=
  (hash.find key).isSome

/-- The call `hash.key(value, defaultKey)`: the first key whose pointer equals the pointer
`value`, or `defaultKey`. -/
def NotificationHash.key : NotificationHash → Nat → Nat → Nat
  | [], _, defaultKey => defaultKey
  | (k, v) :: rest, value, defaultKey =>
      if v = some value then k else NotificationHash.key rest value defaultKey

/-- The calls `hash.remove(key)` and `hash.erase(iter)` for the iterator found at `key`. -/
def NotificationHash.remove (hash : NotificationHash) (key : Nat) : NotificationHash :=
  hash.filter (fun e => e.1 ≠ key)

/-- The call `hash.insert(key, value)`: replace the value of `key`, or add the pair. -/
def NotificationHash.insert : NotificationHash → Nat → Option Nat → NotificationHash
  | [], key, value => [(key, value)]
  | (k, v) :: rest, key, value =>
      if k = key then (k, value) :: rest else (k, v) :: NotificationHash.insert rest key value

/-- The data members of `NotifyByPopupPrivate`. -/
structure NotifyByPopupPrivate where
  popupServerCapabilities : List String
  notificationQueue : List (Nat × KNotifyConfig)
  dbusServiceCapCacheDirty : Bool
  notifications : NotificationHash
  deriving DecidableEq, Repr

/-- The state the constructor `NotifyByPopup::NotifyByPopup` leaves. -/
def init : NotifyByPopupPrivate :=
  { popupServerCapabilities := []
    notificationQueue := []
    dbusServiceCapCacheDirty := true
    notifications := [] }

/-! ## The member functions -/

/-- The function `NotifyByPopupPrivate::getAppCaptionAndIconName`: the pair of the caption and
the icon name it writes through its two out-parameters. -/
def getAppCaptionAndIconName (notifyConfig : KNotifyConfig) : String × String :=
  let appCaption :=
    readEntry notifyConfig.eventsfile "Global" "Name"
      (readEntry notifyConfig.eventsfile "Global" "Comment" notifyConfig.appname)
  let eventGroup := "Event/" ++ notifyConfig.eventid
  let iconName :=
    if hasKey notifyConfig.eventsfile eventGroup "IconName" then
      readEntry notifyConfig.eventsfile eventGroup "IconName" notifyConfig.appname
    else
      readEntry notifyConfig.eventsfile "Global" "IconName" notifyConfig.appname
  (appCaption, iconName)

/-- The loop over `notification->actions()` in `sendNotificationToServer`: `actId` is
incremented, then its number and the action name are appended to `actionList`.  (`actId` is an
`int` that counts the elements of a `QStringList`, whose size is itself an `int`.) -/
def appendActions : List String → Nat → List String → List String
  | [], _, actionList => actionList
  | actionName :: rest, actId, actionList =>
      appendActions rest (actId + 1) (actionList ++ [QString.number (actId + 1), actionName])

/-- The `actionList` that `sendNotificationToServer` builds. -/
def buildActionList (popupServerCapabilities : List String) (n : KNotification) : List String :=
  if popupServerCapabilities.contains "actions" then
    let actionList : List String :=
      if n.defaultAction ≠ "" then ["default", n.defaultAction] else []
    appendActions n.actions 0 actionList
  else
    []

/-- The local `urgency` of `sendNotificationToServer` after its `switch`. -/
def urgencyValue : Urgency → Int
  | Urgency.DefaultUrgency => -1
  | Urgency.LowUrgency => 0
  | Urgency.NormalUrgency => 1
  | Urgency.HighUrgency => 1
  | Urgency.CriticalUrgency => 2

/-- The desktop file name without the suffix `.desktop`, as `sendNotificationToServer` chops it. -/
def chopDesktopSuffix (desktopFileName : String) : String :=
  if desktopFileName.endsWith ".desktop" then desktopFileName.dropRight 8 else desktopFileName

/-- The `hintsMap` that `sendNotificationToServer` builds, assignment by assignment. -/
def buildHintsMap (env : Env) (n : KNotification) : QVariantMap :=
  let h0 : QVariantMap := []
  let h1 := if n.appName ≠ "" then h0.set "x-kde-appname" (QVariant.string n.appName) else h0
  let h2 := if n.eventId ≠ "" then h1.set "x-kde-eventId" (QVariant.string n.eventId) else h1
  let h3 := if n.flags &&& env.SkipGrouping ≠ 0 then h2.set "x-kde-skipGrouping" (QVariant.int 1) else h2
  let h4 := if n.urls ≠ [] then h3.set "x-kde-urls" (QVariant.stringList n.urls) else h3
  let h5 := if ¬ (n.flags &&& env.Persistent ≠ 0) then h4.set "transient" (QVariant.bool true) else h4
  let h6 :=
    if env.desktopFileName ≠ "" then
      h5.set "desktop-entry" (QVariant.string (chopDesktopSuffix env.desktopFileName))
    else h5
  let urgency := urgencyValue n.urgency
  let h7 := if urgency > -1 then h6.set "urgency" (QVariant.int urgency) else h6
  let h8 := mergeHints h7 n.hints
  match n.pixmap with
  | some pixmapData => h8.set "image_data" (env.variantForImage pixmapData)
  | none => h8

/-- The argument list of the `Notify` call that `sendNotificationToServer` assembles once it
has got past the check of `update`; `updateId` is `notifications.key(notification, 0)`. -/
def buildNotifyArgs (env : Env) (d : NotifyByPopupPrivate) (notification : Nat)
    (notifyConfig : KNotifyConfig) : NotifyArgs :=
  let n := env.object notification
  let updateId := d.notifications.key notification 0
  let captionAndIcon := getAppCaptionAndIconName notifyConfig
  let appCaption := captionAndIcon.1
  let iconName := if n.iconName ≠ "" then n.iconName else captionAndIcon.2
  let title := if n.title = "" then appCaption else n.title
  let text := n.text
  let stripped : String × String :=
    if ¬ d.popupServerCapabilities.contains "body-markup" then
      (env.stripRichText title, env.stripRichText text)
    else (title, text)
  { app_name := appCaption
    replaces_id := updateId
    app_icon := iconName
    summary := stripped.1
    body := stripped.2
    actions := buildActionList d.popupServerCapabilities n
    hints := buildHintsMap env n
    expire_timeout := if n.flags &&& env.Persistent ≠ 0 then 0 else -1 }

/-- The function `NotifyByPopupPrivate::sendNotificationToServer`: its return value and what it
sent.  It changes no data member. -/
def sendNotificationToServer (env : Env) (d : NotifyByPopupPrivate) (notification : Nat)
    (notifyConfig : KNotifyConfig) (update : Bool) : Bool × List Effect :=
  let updateId := d.notifications.key notification 0
  if update && updateId == 0 then
    (false, [])
  else
    (true, [Effect.callNotify notification (buildNotifyArgs env d notification notifyConfig)])

/-- The function `NotifyByPopupPrivate::queryPopupServerCapabilities`. -/
def queryPopupServerCapabilities (d : NotifyByPopupPrivate) : List Effect :=
  if d.dbusServiceCapCacheDirty then [Effect.callGetCapabilities] else []

/-- The function `NotifyByPopup::notify`. -/
def notify (env : Env) (d : NotifyByPopupPrivate) (notification : Nat)
    (notifyConfig : KNotifyConfig) : NotifyByPopupPrivate × List Effect :=
  if d.notifications.contains (toUInt32 (env.object notification).id) then
    (d, [Effect.finished notification])
  else if d.dbusServiceCapCacheDirty then
    let d1 := { d with notificationQueue := d.notificationQueue ++ [(notification, notifyConfig)] }
    (d1, queryPopupServerCapabilities d1)
  else
    let sent := sendNotificationToServer env d notification notifyConfig false
    if ¬ sent.1 then (d, sent.2 ++ [Effect.finished notification]) else (d, sent.2)

/-- The function `NotifyByPopup::update`. -/
def update (env : Env) (d : NotifyByPopupPrivate) (notification : Nat)
    (notifyConfig : KNotifyConfig) : NotifyByPopupPrivate × List Effect :=
  (d, (sendNotificationToServer env d notification notifyConfig true).2)

/-- The function `NotifyByPopup::close`. -/
def close (d : NotifyByPopupPrivate) (notification : Nat) : NotifyByPopupPrivate × List Effect :=
  let id := d.notifications.key notification 0
  if id = 0 then
    (d, [])
  else
    ({ d with notificationQueue := d.notificationQueue.filter (fun item => item.1 ≠ notification) },
      [Effect.sendCloseNotification id])

/-- The function `NotifyByPopup::onNotificationActionInvoked`. -/
def onNotificationActionInvoked (env : Env) (d : NotifyByPopupPrivate) (notificationId : Nat)
    (actionKey : String) : NotifyByPopupPrivate × List Effect :=
  match d.notifications.find notificationId with
  | none => (d, [])
  | some (some n) =>
      if actionKey = "default" then
        (d, [Effect.actionInvoked (env.object n).id 0])
      else
        (d, [Effect.actionInvoked (env.object n).id (QString.toUInt actionKey)])
  | some none => ({ d with notifications := d.notifications.remove notificationId }, [])

/-- The function `NotifyByPopup::onNotificationClosed`. -/
def onNotificationClosed (d : NotifyByPopupPrivate) (dbus_id reason : Nat) :
    NotifyByPopupPrivate × List Effect :=
  match d.notifications.find dbus_id with
  | none => (d, [])
  | some n =>
      let d1 := { d with notifications := d.notifications.remove dbus_id }
      match n with
      | some p => (d1, Effect.finished p :: (if reason = 2 then [Effect.close p] else []))
      | none => (d1, [])

/-- The function `NotifyByPopup::onServerReply`: `notification` is the `notificationObject`
property of the watcher (`none` when null) and `replyId` is `reply.argumentAt<0>()`. -/
def onServerReply (d : NotifyByPopupPrivate) (notification : Option Nat) (replyId : Nat) :
    NotifyByPopupPrivate × List Effect :=
  match notification with
  | none => (d, [])
  | some p => ({ d with notifications := d.notifications.insert replyId (some p) }, [])

/-- The `for` loop of `onServerCapabilitiesReceived`: `remaining` iterations are left, the
next one reads `notificationQueue.at(i)` from the current state.  (An index past the end does
not arise: `notify` never shortens the queue.) -/
def replayQueue (env : Env) : Nat → Nat → NotifyByPopupPrivate → NotifyByPopupPrivate × List Effect
  | 0, _, d => (d, [])
  | remaining + 1, i, d =>
      match d.notificationQueue.get? i with
      | none => (d, [])
      | some item =>
          let r1 := notify env d item.1 item.2
          let r2 := replayQueue env remaining (i + 1) r1.1
          (r2.1, r1.2 ++ r2.2)

/-- The function `NotifyByPopup::onServerCapabilitiesReceived`. -/
def onServerCapabilitiesReceived (env : Env) (d : NotifyByPopupPrivate)
    (capabilities : List String) : NotifyByPopupPrivate × List Effect :=
  let d1 := { d with popupServerCapabilities := capabilities, dbusServiceCapCacheDirty := false }
  let r := replayQueue env d1.notificationQueue.length 0 d1
  ({ r.1 with notificationQueue := [] }, r.2)

/-! ## Runs -/

/-- One entry into the plugin: a call by the application or a callback from the bus. -/
inductive Call where
  | notify (notification : Nat) (notifyConfig : KNotifyConfig)
  | update (notification : Nat) (notifyConfig : KNotifyConfig)
  | close (notification : Nat)
  | onNotificationActionInvoked (notificationId : Nat) (actionKey : String)
  | onNotificationClosed (dbus_id reason : Nat)
  | onServerReply (notification : Option Nat) (replyId : Nat)
  | onServerCapabilitiesReceived (capabilities : List String)
  deriving DecidableEq, Repr

/-- Whether the call is a `notify` for the handle `notification`. -/
def Call.isNotifyFor (notification : Nat) : Call → Bool
  | Call.notify n _ => n = notification
  | _ => false

/-- The effect of one call on the private state. -/
def step (env : Env) (d : NotifyByPopupPrivate) : Call → NotifyByPopupPrivate × List Effect
  | Call.notify n c => notify env d n c
  | Call.update n c => update env d n c
  | Call.close n => close d n
  | Call.onNotificationActionInvoked i k => onNotificationActionInvoked env d i k
  | Call.onNotificationClosed i r => onNotificationClosed d i r
  | Call.onServerReply n i => onServerReply d n i
  | Call.onServerCapabilitiesReceived caps => onServerCapabilitiesReceived env d caps

/-- A sequence of calls, one after the other: the final state and everything done on the way. -/
def run (env : Env) : NotifyByPopupPrivate → List Call → NotifyByPopupPrivate × List Effect
  | d, [] => (d, [])
  | d, c :: rest =>
      let r1 := step env d c
      let r2 := run env r1.1 rest
      (r2.1, r1.2 ++ r2.2)

/-! ## The action list in the words of the specification -/

/-- The explicit actions as the specification lists them: `"1", A1, "2", A2, ..., "n", An`,
the action at position `i` (counted from `0`) preceded by the decimal string of `i + 1`. -/
def labelledActions (actions : List String) : List String :=
  ((List.range actions.length).map
    (fun i => [QString.number (i + 1), actions.getD i ""])).flatten

/-- The action list of the request as the specification describes it. -/
def wireActionList (popupServerCapabilities : List String) (defaultAction : String)
    (actions : List String) : List String :=
  if "actions" ∈ popupServerCapabilities then
    (if defaultAction = "" then [] else ["default", defaultAction]) ++ labelledActions actions
  else
    []

/-! ## Sample data -/

/-- A notification with the given local id and nothing else set. -/
def plainNotification (id : Int) : KNotification :=
  { id := id, iconName := "", title := "", text := "", defaultAction := "", actions := [],
    appName := "", eventId := "", flags := 0, urls := [], urgency := Urgency.DefaultUrgency,
    hints := [], pixmap := none }

/-- An environment in which the object at address `p` has local id `p + 6`, rich text is
passed through unchanged, and the flag bits have the values of `knotification.h`. -/
def sampleEnv : Env :=
  { object := fun p => plainNotification (Int.ofNat p + 6)
    stripRichText := fun s => s
    desktopFileName := ""
    variantForImage := fun bytes => QVariant.image bytes
    Persistent := 2
    SkipGrouping := 16 }

/-- The environment `sampleEnv` in which every notification is critical and carries one
hint of its own. -/
def criticalEnv : Env :=
  { sampleEnv with
    object := fun p =>
      { plainNotification (Int.ofNat p + 6) with
        urgency := Urgency.CriticalUrgency
        hints := [("category", QVariant.string "device")] } }

/-- The environment `sampleEnv` in which every notification carries a pixmap and a hint of
its own under the key `image_data`, and another under `x-kde-appname`. -/
def pictureEnv : Env :=
  { sampleEnv with
    object := fun p =>
      { plainNotification (Int.ofNat p + 6) with
        appName := "app"
        hints := [("image_data", QVariant.string "mine"), ("x-kde-appname", QVariant.string "other")]
        pixmap := some [137, 80, 78, 71] } }

/-- A configuration of an application `app` without an events file. -/
def sampleConfig : KNotifyConfig :=
  { appname := "app", eventid := "event", eventsfile := [] }

end KNotifications

namespace KNotifications

/-! ## The duplicate-display guard of `notify` -/

/-- C1 (the code departs from it): the handle at address `1` is displayed (its first `notify`
was replayed when the capabilities arrived and the reply bound it to the server identifier
`5`), yet a second `notify` for it sends a second `Notify` request and emits no `finished`,
because the guard looks the local id `7` up among the server identifiers. -/
theorem notify_displayed_handle_sends_again :
    (run sampleEnv init
        [Call.notify 1 sampleConfig, Call.onServerCapabilitiesReceived [],
          Call.onServerReply (some 1) 5]).1.notifications = [(5, some 1)] ∧
      (sampleEnv.object 1).id = 7 ∧
      ((run sampleEnv init
        [Call.notify 1 sampleConfig, Call.onServerCapabilitiesReceived [],
          Call.onServerReply (some 1) 5, Call.notify 1 sampleConfig]).2.filter
            Effect.isNotify).length = 2 ∧
      (notify sampleEnv
        { popupServerCapabilities := [], notificationQueue := [],
          dbusServiceCapCacheDirty := false, notifications := [(5, some 1)] } 1 sampleConfig).2
        = [Effect.callNotify 1
            { app_name := "app", replaces_id := 5, app_icon := "app", summary := "app",
              body := "", actions := [], hints := [("transient", QVariant.bool true)],
              expire_timeout := -1 }] := by
  decide

/-! ## Queueing while the capabilities are unknown, and the replay -/

/-- The argument list of a `Notify` call reads only the capabilities and the hash of the state. -/
theorem buildNotifyArgs_congr (env : Env) (d d1 : NotifyByPopupPrivate) (n : Nat)
    (c : KNotifyConfig) (hc : d1.popupServerCapabilities = d.popupServerCapabilities)
    (hn : d1.notifications = d.notifications) :
    buildNotifyArgs env d1 n c = buildNotifyArgs env d n c := by
  simp only [buildNotifyArgs, hc, hn]

/-- While the cache is dirty and the hash is empty, each `notify` appends its request to the
queue and asks for the capabilities. -/
theorem run_notify_dirty_empty (env : Env) (reqs : List (Nat × KNotifyConfig)) :
    ∀ d : NotifyByPopupPrivate, d.dbusServiceCapCacheDirty = true → d.notifications = [] →
      run env d (reqs.map (fun r => Call.notify r.1 r.2)) =
        ({ d with notificationQueue := d.notificationQueue ++ reqs },
          List.replicate reqs.length Effect.callGetCapabilities) := by
  induction reqs with
  | nil => intro d _ _; simp [run]
  | cons r rest ih =>
      intro d hd hn
      have hstep : step env d (Call.notify r.1 r.2) =
          ({ d with notificationQueue := d.notificationQueue ++ [r] },
            [Effect.callGetCapabilities]) := by
        simp [step, notify, hd, hn, NotificationHash.contains, NotificationHash.find,
          queryPopupServerCapabilities]
      simp only [List.map_cons, run, hstep]
      rw [ih { d with notificationQueue := d.notificationQueue ++ [r] } hd hn]
      simp [List.replicate_succ]

/-- With a fresh cache and an empty hash, the replay loop sends one `Notify` per queued
request from index `pre.length` on, in queue order, and changes no data member. -/
theorem replayQueue_fresh_empty (env : Env) (rest : List (Nat × KNotifyConfig)) :
    ∀ (pre : List (Nat × KNotifyConfig)) (d : NotifyByPopupPrivate),
      d.dbusServiceCapCacheDirty = false → d.notifications = [] →
      d.notificationQueue = pre ++ rest →
      replayQueue env rest.length pre.length d =
        (d, rest.map (fun r => Effect.callNotify r.1 (buildNotifyArgs env d r.1 r.2))) := by
  induction rest with
  | nil => intro pre d _ _ _; simp [replayQueue]
  | cons r rest ih =>
      intro pre d hd hn hq
      have hget : d.notificationQueue.get? pre.length = some r := by
        rw [hq, List.get?_eq_getElem?, List.getElem?_append_right (Nat.le_refl _)]
        simp
      have hnot : notify env d r.1 r.2 =
          (d, [Effect.callNotify r.1 (buildNotifyArgs env d r.1 r.2)]) := by
        simp [notify, hd, hn, NotificationHash.contains, NotificationHash.find,
          sendNotificationToServer]
      have hq2 : d.notificationQueue = (pre ++ [r]) ++ rest := by
        rw [hq]; simp
      have hrec := ih (pre ++ [r]) d hd hn hq2
      simp only [List.length_append, List.length_singleton] at hrec
      simp only [List.length_cons, replayQueue, hget, hnot, hrec, List.map_cons]
      simp

/-- C2: from a dispatcher with a dirty capability cache, an empty hash and an empty queue,
`notify` for the requests `reqs` in order sends nothing but `GetCapabilities` calls, and the
`onServerCapabilitiesReceived` that follows sends exactly one `Notify` per request, in the
order of the calls, and leaves the queue empty.  (The handles need not even be distinct.) -/
theorem queued_requests_replayed_in_order (env : Env) (caps0 caps : List String)
    (reqs : List (Nat × KNotifyConfig)) :
    (∀ e ∈ (run env
        { popupServerCapabilities := caps0, notificationQueue := [],
          dbusServiceCapCacheDirty := true, notifications := [] }
        (reqs.map (fun r => Call.notify r.1 r.2))).2, Effect.isNotify e = false) ∧
      onServerCapabilitiesReceived env
        (run env
          { popupServerCapabilities := caps0, notificationQueue := [],
            dbusServiceCapCacheDirty := true, notifications := [] }
          (reqs.map (fun r => Call.notify r.1 r.2))).1 caps =
        ({ popupServerCapabilities := caps, notificationQueue := [],
           dbusServiceCapCacheDirty := false, notifications := [] },
         reqs.map (fun r => Effect.callNotify r.1
           (buildNotifyArgs env
             { popupServerCapabilities := caps, notificationQueue := [],
               dbusServiceCapCacheDirty := false, notifications := [] } r.1 r.2))) := by
  rw [run_notify_dirty_empty env reqs _ rfl rfl]
  refine ⟨?_, ?_⟩
  · intro e he
    rw [List.eq_of_mem_replicate he]
    rfl
  · have h := replayQueue_fresh_empty env reqs []
      { popupServerCapabilities := caps, notificationQueue := reqs,
        dbusServiceCapCacheDirty := false, notifications := [] } rfl rfl rfl
    simp only [List.length_nil] at h
    simp only [onServerCapabilitiesReceived, List.nil_append, h]
    refine Prod.ext rfl ?_
    simp only
    apply List.map_congr_left
    intro r _
    exact congrArg _ (buildNotifyArgs_congr env _ _ r.1 r.2 rfl rfl)

/-! ## `close` and the queue -/

/-- A handle no entry of the hash points at has no key: `key` returns its default. -/
theorem key_eq_default_of_unbound (hash : NotificationHash) (value dflt : Nat)
    (h : ∀ e ∈ hash, e.2 ≠ some value) : hash.key value dflt = dflt := by
  induction hash with
  | nil => rfl
  | cons e rest ih =>
      obtain ⟨k, v⟩ := e
      have hv : v ≠ some value := h (k, v) (List.mem_cons_self _ _)
      have hrest : ∀ e ∈ rest, e.2 ≠ some value := fun e he => h e (List.mem_cons_of_mem _ he)
      simp [NotificationHash.key, hv, ih hrest]

/-- For a handle that has no identifier, `close` returns before it reaches the queue. -/
theorem close_unbound_changes_nothing (d : NotifyByPopupPrivate) (notification : Nat)
    (h : ∀ e ∈ d.notifications, e.2 ≠ some notification) : close d notification = (d, []) := by
  simp [close, key_eq_default_of_unbound d.notifications notification 0 h]

/-- C3 (the code departs from it): the handle at address `1` is queued by `notify` while the
capabilities are unknown and closed before they arrive; `close` returns at `id == 0`, before
the loop that purges the queue, so the request stays queued and
`onServerCapabilitiesReceived` sends a `Notify` for the closed handle. -/
theorem close_before_capabilities_keeps_request :
    (run sampleEnv init [Call.notify 1 sampleConfig]).1.notificationQueue = [(1, sampleConfig)] ∧
      run sampleEnv init [Call.notify 1 sampleConfig, Call.close 1] =
        ({ popupServerCapabilities := [], notificationQueue := [(1, sampleConfig)],
           dbusServiceCapCacheDirty := true, notifications := [] },
         [Effect.callGetCapabilities]) ∧
      ((run sampleEnv init
          [Call.notify 1 sampleConfig, Call.close 1,
            Call.onServerCapabilitiesReceived []]).2.filter (Effect.isNotifyFor 1)).length = 1 := by
  decide

/-! ## Capability discovery -/

/-- While the cache is dirty, `notify` keeps the flag and the hash, and asks for the
capabilities unless the guard on the local id stops it. -/
theorem notify_dirty (env : Env) (d : NotifyByPopupPrivate) (n : Nat) (c : KNotifyConfig)
    (hd : d.dbusServiceCapCacheDirty = true) :
    (notify env d n c).1.dbusServiceCapCacheDirty = true ∧
      (notify env d n c).1.notifications = d.notifications ∧
      (notify env d n c).2 =
        if d.notifications.contains (toUInt32 (env.object n).id) then [Effect.finished n]
        else [Effect.callGetCapabilities] := by
  unfold notify
  by_cases hc : d.notifications.contains (toUInt32 (env.object n).id) = true
  · simp [hc, hd]
  · simp [hc, hd, queryPopupServerCapabilities]

/-- C4, refuted as stated: two `notify` calls made from the initial (dirty) state, before
any capabilities have arrived, issue two `GetCapabilities` requests, not at most one. -/
theorem two_notifies_two_discovery_requests :
    init.dbusServiceCapCacheDirty = true ∧
      (run sampleEnv init
        [Call.notify 1 sampleConfig, Call.notify 2 sampleConfig]).1.dbusServiceCapCacheDirty = true ∧
      ((run sampleEnv init [Call.notify 1 sampleConfig, Call.notify 2 sampleConfig]).2.filter
        Effect.isGetCapabilities).length = 2 ∧
      ¬ ((run sampleEnv init [Call.notify 1 sampleConfig, Call.notify 2 sampleConfig]).2.filter
        Effect.isGetCapabilities).length ≤ 1 := by
  decide

/-- C4, amended: in a sequence of `notify` calls made while the capability cache is dirty,
every call that gets past the guard on the local id issues one `GetCapabilities` request, so
the requests issued are as many as those calls; nothing records that a request is
outstanding. -/
theorem discovery_requested_by_each_notify (env : Env) (reqs : List (Nat × KNotifyConfig)) :
    ∀ d : NotifyByPopupPrivate, d.dbusServiceCapCacheDirty = true →
      ((run env d (reqs.map (fun r => Call.notify r.1 r.2))).2.filter
          Effect.isGetCapabilities).length =
        (reqs.filter
          (fun r => !d.notifications.contains (toUInt32 (env.object r.1).id))).length := by
  induction reqs with
  | nil => intro d _; simp [run]
  | cons r rest ih =>
      intro d hd
      obtain ⟨h1, h2, h3⟩ := notify_dirty env d r.1 r.2 hd
      have ih1 := ih (notify env d r.1 r.2).1 h1
      rw [h2] at ih1
      simp only [List.map_cons, run, step, List.filter_append, List.length_append, ih1, h3]
      by_cases hc : d.notifications.contains (toUInt32 (env.object r.1).id) = true
      · simp [hc, Effect.isGetCapabilities]
      · simp [hc, Effect.isGetCapabilities]
        omega

/-- A concrete instance of the count of discovery requests: two calls from the initial state. -/
theorem discovery_requested_by_each_notify_witness :
    init.dbusServiceCapCacheDirty = true ∧
      ((run sampleEnv init
          ([(1, sampleConfig), (2, sampleConfig)].map (fun r => Call.notify r.1 r.2))).2.filter
          Effect.isGetCapabilities).length =
        ([(1, sampleConfig), (2, sampleConfig)].filter
          (fun r => !init.notifications.contains (toUInt32 (sampleEnv.object r.1).id))).length :=
  ⟨rfl, discovery_requested_by_each_notify sampleEnv [(1, sampleConfig), (2, sampleConfig)] init rfl⟩

/-! ## `update` without an identifier -/

/-- C5: for a handle that no entry of the hash points at, `sendNotificationToServer` with
`update = true` returns `false` and sends nothing, and `update` sends nothing and leaves the
whole state (hash, queue, capability cache) as it was. -/
theorem update_unbound_fails (env : Env) (d : NotifyByPopupPrivate) (notification : Nat)
    (notifyConfig : KNotifyConfig) (h : ∀ e ∈ d.notifications, e.2 ≠ some notification) :
    sendNotificationToServer env d notification notifyConfig true = (false, []) ∧
      update env d notification notifyConfig = (d, []) := by
  have hk := key_eq_default_of_unbound d.notifications notification 0 h
  simp [update, sendNotificationToServer, hk]

/-- A concrete instance of the failing update: the hash binds `5` to another handle. -/
theorem update_unbound_fails_witness :
    (∀ e ∈ ([(5, some 2)] : NotificationHash), e.2 ≠ some 1) ∧
      (sendNotificationToServer sampleEnv
          { popupServerCapabilities := [], notificationQueue := [],
            dbusServiceCapCacheDirty := false, notifications := [(5, some 2)] }
          1 sampleConfig true = (false, []) ∧
        update sampleEnv
          { popupServerCapabilities := [], notificationQueue := [],
            dbusServiceCapCacheDirty := false, notifications := [(5, some 2)] }
          1 sampleConfig =
          ({ popupServerCapabilities := [], notificationQueue := [],
             dbusServiceCapCacheDirty := false, notifications := [(5, some 2)] }, [])) :=
  ⟨by decide, update_unbound_fails sampleEnv _ 1 sampleConfig (by decide)⟩

/-! ## The `NotificationClosed` signal -/

/-- After `remove`, `find` no longer finds the key. -/
theorem find_remove_self (hash : NotificationHash) (key : Nat) :
    (hash.remove key).find key = none := by
  induction hash with
  | nil => rfl
  | cons e rest ih =>
      obtain ⟨k, v⟩ := e
      by_cases hk : k = key
      · simpa [NotificationHash.remove, List.filter_cons, hk] using ih
      · simpa [NotificationHash.remove, List.filter_cons, hk, NotificationHash.find] using ih

/-- Removing one key leaves what `find` returns for every other key. -/
theorem find_remove_other (hash : NotificationHash) (key other : Nat) (h : other ≠ key) :
    (hash.remove key).find other = hash.find other := by
  induction hash with
  | nil => rfl
  | cons e rest ih =>
      obtain ⟨k, v⟩ := e
      simp only [NotificationHash.remove] at ih ⊢
      by_cases hk : k = key
      · subst hk
        have hko : ¬ k = other := fun hc => h hc.symm
        simpa [List.filter_cons, NotificationHash.find, hko] using ih
      · by_cases hko : k = other
        · subst hko
          simp [List.filter_cons, hk, NotificationHash.find]
        · simpa [List.filter_cons, hk, NotificationHash.find, hko] using ih

/-- C6: for an identifier that is a key of the hash and any reason, `onNotificationClosed`
leaves a hash without that key in which every other key has the value it had (the hash is the
old one less the entries of that key) and touches no other data member; a second, identical
`onNotificationClosed` right after it changes nothing and emits nothing. -/
theorem closed_signal_removes_entry (d : NotifyByPopupPrivate) (dbus_id reason : Nat)
    (h : d.notifications.contains dbus_id = true) :
    (onNotificationClosed d dbus_id reason).1.notifications.find dbus_id = none ∧
      (∀ other, other ≠ dbus_id →
        (onNotificationClosed d dbus_id reason).1.notifications.find other =
          d.notifications.find other) ∧
      (onNotificationClosed d dbus_id reason).1 =
        { d with notifications := d.notifications.filter (fun e => e.1 ≠ dbus_id) } ∧
      onNotificationClosed (onNotificationClosed d dbus_id reason).1 dbus_id reason =
        ((onNotificationClosed d dbus_id reason).1, []) := by
  have hstate : (onNotificationClosed d dbus_id reason).1 =
      { d with notifications := d.notifications.remove dbus_id } := by
    unfold onNotificationClosed
    cases hf : d.notifications.find dbus_id with
    | none => simp [NotificationHash.contains, hf] at h
    | some n => cases n <;> rfl
  have hgone := find_remove_self d.notifications dbus_id
  refine ⟨?_, ?_, ?_, ?_⟩
  · rw [hstate]; exact hgone
  · intro other ho
    rw [hstate]; exact find_remove_other d.notifications dbus_id other ho
  · rw [hstate]; rfl
  · rw [hstate]
    simp only [onNotificationClosed, hgone]

/-- A concrete instance of the removal: the hash binds `5` and `6`, and `5` is closed. -/
theorem closed_signal_removes_entry_witness :
    NotificationHash.contains [(5, some 1), (6, some 2)] 5 = true ∧
      (onNotificationClosed
        { popupServerCapabilities := [], notificationQueue := [],
          dbusServiceCapCacheDirty := false, notifications := [(5, some 1), (6, some 2)] }
        5 2).1.notifications = [(6, some 2)] ∧
      (onNotificationClosed
        { popupServerCapabilities := [], notificationQueue := [],
          dbusServiceCapCacheDirty := false, notifications := [(5, some 1), (6, some 2)] }
        5 2).1.notifications.find 5 = none :=
  ⟨by decide, by decide,
    (closed_signal_removes_entry
      { popupServerCapabilities := [], notificationQueue := [],
        dbusServiceCapCacheDirty := false, notifications := [(5, some 1), (6, some 2)] }
      5 2 (by decide)).1⟩

/-- C7: for an identifier whose entry holds the pointer `q`, `onNotificationClosed` emits,
when `q` is a live handle `p`, the signal `finished(p)` once, followed by the call
`p->close()` exactly when the reason is `2`; and it emits nothing when `q` is null (the
handle is gone). -/
theorem closed_signal_events (d : NotifyByPopupPrivate) (dbus_id reason : Nat) (q : Option Nat) :
    d.notifications.find dbus_id = some q →
      (onNotificationClosed d dbus_id reason).2 =
        match q with
        | some p => Effect.finished p :: (if reason = 2 then [Effect.close p] else [])
        | none => [] := by
  intro h
  unfold onNotificationClosed
  rw [h]
  cases q <;> rfl

/-- A concrete instance of the events: the user dismisses the popup of the handle at `1`. -/
theorem closed_signal_events_witness :
    NotificationHash.find [(5, some 1), (6, none)] 5 = some (some 1) ∧
      (onNotificationClosed
        { popupServerCapabilities := [], notificationQueue := [],
          dbusServiceCapCacheDirty := false, notifications := [(5, some 1), (6, none)] }
        5 2).2 = [Effect.finished 1, Effect.close 1] :=
  ⟨by decide,
    closed_signal_events
      { popupServerCapabilities := [], notificationQueue := [],
        dbusServiceCapCacheDirty := false, notifications := [(5, some 1), (6, none)] }
      5 2 (some 1) (by decide)⟩

/-! ## The action list -/

/-- The loop over the actions, started with the counter at `actId`, appends to the list the
actions numbered from `actId + 1` on. -/
theorem appendActions_eq (actions : List String) :
    ∀ (actId : Nat) (actionList : List String),
      appendActions actions actId actionList =
        actionList ++ ((List.range actions.length).map
          (fun i => [QString.number (actId + i + 1), actions.getD i ""])).flatten := by
  induction actions with
  | nil => intro actId actionList; simp [appendActions]
  | cons a rest ih =>
      intro actId actionList
      rw [appendActions, ih (actId + 1)]
      simp only [List.length_cons, List.range_succ_eq_map, List.map_cons, List.map_map,
        List.flatten_cons, List.getD_cons_zero, Nat.add_zero, List.append_assoc,
        List.cons_append, List.nil_append]
      congr 4
      apply List.map_congr_left
      intro i _
      simp only [Function.comp, Nat.succ_eq_add_one, List.getD_cons_succ]
      congr 2
      omega

/-- C8: the action list of the `Notify` request is the one the specification describes: empty
when the capabilities lack `"actions"`; otherwise `"default", A0` (only for a non-empty
default action `A0`) followed by `"1", A1, "2", A2, ..., "n", An`, the numbering starting at
`1` whether or not there is a default action. -/
theorem action_list_as_specified (env : Env) (d : NotifyByPopupPrivate) (notification : Nat)
    (notifyConfig : KNotifyConfig) :
    (buildNotifyArgs env d notification notifyConfig).actions =
      wireActionList d.popupServerCapabilities (env.object notification).defaultAction
        (env.object notification).actions := by
  simp only [buildNotifyArgs, buildActionList, wireActionList, labelledActions]
  by_cases hc : "actions" ∈ d.popupServerCapabilities
  · by_cases hd : (env.object notification).defaultAction = ""
    · simp [hc, hd, appendActions_eq]
    · simp [hc, hd, appendActions_eq]
  · simp [hc]

/-! ## Action labels and their way back -/

/-- A digit character has the value of its digit. -/
theorem digitValue_digitChar (d : Nat) (h : d < 10) : digitValue (digitChar d) = some d := by
  interval_cases d <;> rfl

/-- A digit character is not white space. -/
theorem isSpace_digitChar (d : Nat) (h : d < 10) : isSpace (digitChar d) = false := by
  interval_cases d <;> rfl

/-- A digit character is neither the plus sign nor the letter `d`. -/
theorem digitChar_ne (d : Nat) (h : d < 10) : digitChar d ≠ '+' ∧ digitChar d ≠ 'd' := by
  interval_cases d <;> decide

/-- The digits do not depend on the number of steps allowed, once it exceeds the number. -/
theorem decimalDigitsCore_eq (n : Nat) :
    ∀ steps acc, n < steps →
      decimalDigitsCore steps n acc = decimalDigitsCore (n + 1) n [] ++ acc := by
  induction n using Nat.strong_induction_on with
  | _ n ih =>
      intro steps acc hs
      obtain ⟨s, rfl⟩ : ∃ s, steps = s + 1 := ⟨steps - 1, by omega⟩
      by_cases hn : n < 10
      · simp [decimalDigitsCore, hn]
      · simp only [decimalDigitsCore, hn, if_false]
        rw [ih (n / 10) (by omega) s _ (by omega), ih (n / 10) (by omega) n _ (by omega)]
        simp

/-- The digits of a number: one digit below ten, and otherwise the digits of the tenth
followed by the last digit. -/
theorem decimalDigits_eq (n : Nat) :
    decimalDigits n =
      if n < 10 then [digitChar n] else decimalDigits (n / 10) ++ [digitChar (n % 10)] := by
  by_cases hn : n < 10
  · simp [decimalDigits, decimalDigitsCore, hn]
  · have hstep : decimalDigitsCore (n + 1) n [] =
        decimalDigitsCore n (n / 10) [digitChar (n % 10)] := by
      simp [decimalDigitsCore, hn]
    unfold decimalDigits
    rw [hstep, if_neg hn, decimalDigitsCore_eq (n / 10) n _ (by omega)]

/-- The digit characters are those of the standard library. -/
theorem digitChar_eq (d : Nat) (h : d < 10) : digitChar d = Nat.digitChar d := by
  interval_cases d <;> rfl

/-- The digits are those the standard library prints. -/
theorem decimalDigitsCore_eq_toDigitsCore :
    ∀ steps n acc, decimalDigitsCore steps n acc = Nat.toDigitsCore 10 steps n acc := by
  intro steps
  induction steps with
  | zero => intro n acc; rfl
  | succ s ih =>
      intro n acc
      by_cases hn : n < 10
      · have h0 : n / 10 = 0 := by omega
        have hm : n % 10 = n := by omega
        simp [decimalDigitsCore, Nat.toDigitsCore, hn, h0, hm, digitChar_eq n hn]
      · have h0 : ¬ n / 10 = 0 := by omega
        simp only [decimalDigitsCore, Nat.toDigitsCore, hn, h0, if_false]
        rw [ih, digitChar_eq _ (Nat.mod_lt _ (by decide))]

/-- The model of `QString::number` prints what `Nat.repr` prints. -/
theorem number_eq_repr (n : Nat) : QString.number n = Nat.repr n := by
  simp [QString.number, decimalDigits, decimalDigitsCore_eq_toDigitsCore, Nat.repr, Nat.toDigits,
    List.asString]

/-- Every character of a decimal representation is a digit character. -/
theorem decimalDigits_digits (n : Nat) : ∀ c ∈ decimalDigits n, ∃ d, d < 10 ∧ c = digitChar d := by
  induction n using Nat.strong_induction_on with
  | _ n ih =>
      intro c hc
      rw [decimalDigits_eq] at hc
      by_cases hn : n < 10
      · simp only [hn, if_true, List.mem_singleton] at hc
        exact ⟨n, hn, hc⟩
      · simp only [hn, if_false, List.mem_append, List.mem_singleton] at hc
        rcases hc with hc | hc
        · exact ih (n / 10) (by omega) c hc
        · exact ⟨n % 10, Nat.mod_lt _ (by decide), hc⟩

/-- A decimal representation is not empty. -/
theorem decimalDigits_ne_nil (n : Nat) : decimalDigits n ≠ [] := by
  rw [decimalDigits_eq]
  by_cases hn : n < 10 <;> simp [hn]

/-- Reading one more digit at the end. -/
theorem parseDigits_append_digit (cs : List Char) (d : Nat) (hd : d < 10) :
    ∀ acc v, parseDigits cs acc = some v →
      parseDigits (cs ++ [digitChar d]) acc = some (10 * v + d) := by
  induction cs with
  | nil =>
      intro acc v h
      simp only [parseDigits, Option.some.injEq] at h
      simp [parseDigits, digitValue_digitChar d hd, h]
  | cons c rest ih =>
      intro acc v h
      simp only [parseDigits, List.cons_append] at h ⊢
      cases hv : digitValue c with
      | none => simp [hv] at h
      | some x =>
          simp only [hv] at h ⊢
          exact ih _ _ h

/-- Reading the decimal representation of a number gives the number back. -/
theorem parseDigits_decimalDigits (n : Nat) : parseDigits (decimalDigits n) 0 = some n := by
  induction n using Nat.strong_induction_on with
  | _ n ih =>
      rw [decimalDigits_eq]
      by_cases hn : n < 10
      · simp [hn, parseDigits, digitValue_digitChar n hn]
      · simp only [hn, if_false]
        rw [parseDigits_append_digit _ _ (Nat.mod_lt _ (by decide)) 0 (n / 10)
          (ih (n / 10) (by omega))]
        congr 1
        omega

/-- Trimming leaves a string without white space as it is. -/
theorem trimmed_of_no_space (cs : List Char) (h : ∀ c ∈ cs, isSpace c = false) :
    trimmed cs = cs := by
  have drop_id : ∀ l : List Char, (∀ c ∈ l, isSpace c = false) → l.dropWhile isSpace = l := by
    intro l hl
    cases l with
    | nil => rfl
    | cons a t =>
        have ha : isSpace a = false := hl a (List.mem_cons_self _ _)
        simp [List.dropWhile_cons, ha]
  unfold trimmed
  rw [drop_id cs h, drop_id cs.reverse (fun c hc => h c (List.mem_reverse.mp hc)),
    List.reverse_reverse]

/-- The conversion `toUInt` inverts `QString::number` on every number that fits in 32 bits. -/
theorem toUInt_number (k : Nat) (hk : k < 4294967296) : QString.toUInt (QString.number k) = k := by
  have hdig := decimalDigits_digits k
  have htrim : trimmed (decimalDigits k) = decimalDigits k :=
    trimmed_of_no_space _ (fun c hc => by
      obtain ⟨d, hd, rfl⟩ := hdig c hc
      exact isSpace_digitChar d hd)
  have hparse := parseDigits_decimalDigits k
  unfold QString.toUInt QString.number
  simp only [htrim]
  cases hcs : decimalDigits k with
  | nil => exact absurd hcs (decimalDigits_ne_nil k)
  | cons c rest =>
      have hplus : c ≠ '+' := by
        obtain ⟨d, hd, rfl⟩ := hdig c (by rw [hcs]; exact List.mem_cons_self _ _)
        exact (digitChar_ne d hd).1
      rw [hcs] at hparse
      have hbody : (match c :: rest with
          | '+' :: rest => rest
          | cs => cs) = c :: rest := by
        split
        · rename_i heq
          simp only [List.cons.injEq] at heq
          exact absurd heq.1 hplus
        · rfl
      simp only [hbody, hparse, hk, if_true]

/-- No action number is the key `default`. -/
theorem number_ne_default (k : Nat) : QString.number k ≠ "default" := by
  intro h
  have hdata : decimalDigits k = "default".data := congrArg String.data h
  have hmem : 'd' ∈ decimalDigits k := by rw [hdata]; decide
  obtain ⟨d, hd, hc⟩ := decimalDigits_digits k 'd' hmem
  exact (digitChar_ne d hd).2 hc.symm

/-- C9: for an identifier bound to a live handle `p`, the key `default` makes
`onNotificationActionInvoked` emit `actionInvoked` with the handle's id and index `0`, and
the label `QString::number(k)` that `sendNotificationToServer` gives the `k`-th explicit
action makes it emit `actionInvoked` with index `k`, for every `k ≥ 1` that fits in 32 bits
and whatever actions the handle declares; the state, the hash included, stays as it was. -/
theorem action_key_round_trip (env : Env) (d : NotifyByPopupPrivate) (notificationId p k : Nat)
    (hbound : d.notifications.find notificationId = some (some p))
    (hk1 : 1 ≤ k) (hk : k < 4294967296) :
    onNotificationActionInvoked env d notificationId "default" =
        (d, [Effect.actionInvoked (env.object p).id 0]) ∧
      onNotificationActionInvoked env d notificationId (QString.number k) =
        (d, [Effect.actionInvoked (env.object p).id k]) ∧
      (∀ actionName actionList, appendActions [actionName] (k - 1) actionList =
        actionList ++ [QString.number k, actionName]) := by
  refine ⟨?_, ?_, ?_⟩
  · simp [onNotificationActionInvoked, hbound]
  · simp [onNotificationActionInvoked, hbound, number_ne_default k, toUInt_number k hk]
  · intro actionName actionList
    simp [appendActions, Nat.sub_add_cancel hk1]

/-- A concrete instance of the round trip: the key `7` for a handle that declares no action. -/
theorem action_key_round_trip_witness :
    NotificationHash.find [(5, some 1)] 5 = some (some 1) ∧ 1 ≤ 7 ∧ 7 < 4294967296 ∧
      QString.number 7 = "7" ∧ (sampleEnv.object 1).actions = [] ∧
      onNotificationActionInvoked sampleEnv
        { popupServerCapabilities := [], notificationQueue := [],
          dbusServiceCapCacheDirty := false, notifications := [(5, some 1)] } 5 (QString.number 7) =
        ({ popupServerCapabilities := [], notificationQueue := [],
           dbusServiceCapCacheDirty := false, notifications := [(5, some 1)] },
         [Effect.actionInvoked 7 7]) :=
  ⟨by decide, by decide, by decide, by decide, rfl,
    (action_key_round_trip sampleEnv
      { popupServerCapabilities := [], notificationQueue := [],
        dbusServiceCapCacheDirty := false, notifications := [(5, some 1)] }
      5 1 7 (by decide) (by decide) (by decide)).2.1⟩

/-! ## The hints map -/

/-- What `value` returns after an assignment. -/
theorem value_set (m : QVariantMap) (key : String) (v : QVariant) (other : String) :
    QVariantMap.value (QVariantMap.set m key v) other =
      if key = other then some v else QVariantMap.value m other := by
  induction m with
  | nil => simp [QVariantMap.set, QVariantMap.value]
  | cons e rest ih =>
      obtain ⟨k, w⟩ := e
      by_cases hk : k = key
      · subst hk
        by_cases ho : k = other <;> simp [QVariantMap.set, QVariantMap.value, ho]
      · by_cases ho : k = other
        · subst ho
          simp [QVariantMap.set, QVariantMap.value, hk, ih, Ne.symm hk]
        · simp [QVariantMap.set, QVariantMap.value, hk, ho, ih]

/-- Merging hints that lack a key leaves the value of that key. -/
theorem value_mergeHints_of_absent (hints : QVariantMap) (key : String) :
    ∀ m : QVariantMap, QVariantMap.value hints key = none →
      QVariantMap.value (mergeHints m hints) key = QVariantMap.value m key := by
  induction hints with
  | nil => intro m _; rfl
  | cons e rest ih =>
      intro m h
      obtain ⟨k, w⟩ := e
      by_cases hk : k = key
      · simp [QVariantMap.value, hk] at h
      · simp only [QVariantMap.value, hk, if_false] at h
        rw [mergeHints, ih _ h, value_set, if_neg hk]

/-- C10: when the handle's own hints have no key `urgency`, the hints map of the `Notify`
request maps `urgency` to `0` for a low, `1` for a normal, `1` for a high and `2` for a
critical urgency, and has no such key for the default urgency. -/
theorem urgency_hint (env : Env) (d : NotifyByPopupPrivate) (notification : Nat)
    (notifyConfig : KNotifyConfig) :
    QVariantMap.value (env.object notification).hints "urgency" = none →
      QVariantMap.value (buildNotifyArgs env d notification notifyConfig).hints "urgency" =
        match (env.object notification).urgency with
        | Urgency.DefaultUrgency => none
        | Urgency.LowUrgency => some (QVariant.int 0)
        | Urgency.NormalUrgency => some (QVariant.int 1)
        | Urgency.HighUrgency => some (QVariant.int 1)
        | Urgency.CriticalUrgency => some (QVariant.int 2) := by
  intro h
  have himg : ∀ m : QVariantMap,
      QVariantMap.value (match (env.object notification).pixmap with
        | some pixmapData => QVariantMap.set m "image_data" (env.variantForImage pixmapData)
        | none => m) "urgency" = QVariantMap.value m "urgency" := by
    intro m
    cases (env.object notification).pixmap with
    | none => rfl
    | some b => simp only [value_set]; rw [if_neg (by decide)]
  simp only [buildNotifyArgs, buildHintsMap]
  rw [himg, value_mergeHints_of_absent _ _ _ h]
  cases (env.object notification).urgency <;>
    simp [urgencyValue, value_set, QVariantMap.value, apply_ite (fun m => QVariantMap.value m "urgency")]

/-- A concrete instance of the urgency hint: a critical notification whose own hints are
about something else. -/
theorem urgency_hint_witness :
    QVariantMap.value (criticalEnv.object 1).hints "urgency" = none ∧
      QVariantMap.value (buildNotifyArgs criticalEnv init 1 sampleConfig).hints "urgency" =
        some (QVariant.int 2) :=
  ⟨by decide, urgency_hint criticalEnv init 1 sampleConfig (by decide)⟩

/-! ## Summary and body -/

/-- C11: with `t` the handle's title, or the caption when the title is empty, the `Notify`
request carries `t` and the handle's text unchanged as summary and body when the
capabilities contain `body-markup`, and `stripRichText` of each when they do not. -/
theorem summary_and_body (env : Env) (d : NotifyByPopupPrivate) (notification : Nat)
    (notifyConfig : KNotifyConfig) :
    (buildNotifyArgs env d notification notifyConfig).summary =
        (if "body-markup" ∈ d.popupServerCapabilities then
          (if (env.object notification).title = "" then
            (getAppCaptionAndIconName notifyConfig).1 else (env.object notification).title)
        else
          env.stripRichText
            (if (env.object notification).title = "" then
              (getAppCaptionAndIconName notifyConfig).1 else (env.object notification).title)) ∧
      (buildNotifyArgs env d notification notifyConfig).body =
        (if "body-markup" ∈ d.popupServerCapabilities then (env.object notification).text
        else env.stripRichText (env.object notification).text) := by
  by_cases hc : "body-markup" ∈ d.popupServerCapabilities <;> simp [buildNotifyArgs, hc]

/-! ## The identifier to replace -/

/-- When `key` does not return its default, the key it returns is bound to the value. -/
theorem key_mem_of_ne_default (hash : NotificationHash) (value dflt : Nat)
    (h : hash.key value dflt ≠ dflt) : (hash.key value dflt, some value) ∈ hash := by
  induction hash with
  | nil => exact absurd rfl h
  | cons e rest ih =>
      obtain ⟨k, v⟩ := e
      by_cases hv : v = some value
      · subst hv
        simp [NotificationHash.key]
      · simp only [NotificationHash.key, hv, if_false] at h ⊢
        exact List.mem_cons_of_mem _ (ih h)

/-- C12 (the code departs from it): the handle at address `1` is displayed and bound to the
identifier `5` (the state that `notify`, the capabilities and the reply of the server leave).
A further `notify` for it gets past the guard on the local id and calls
`sendNotificationToServer` with `update = false`, and the request built there carries the
replace identifier `5`, not `0`: it asks the server to replace the popup on the screen,
where the function is documented to put a new notification on the screen. -/
theorem new_request_for_bound_handle_replaces :
    (run sampleEnv init
        [Call.notify 1 sampleConfig, Call.onServerCapabilitiesReceived [],
          Call.onServerReply (some 1) 5]).1 =
      { popupServerCapabilities := [], notificationQueue := [],
        dbusServiceCapCacheDirty := false, notifications := [(5, some 1)] } ∧
    notify sampleEnv
        { popupServerCapabilities := [], notificationQueue := [],
          dbusServiceCapCacheDirty := false, notifications := [(5, some 1)] }
        1 sampleConfig =
      ({ popupServerCapabilities := [], notificationQueue := [],
         dbusServiceCapCacheDirty := false, notifications := [(5, some 1)] },
       (sendNotificationToServer sampleEnv
        { popupServerCapabilities := [], notificationQueue := [],
          dbusServiceCapCacheDirty := false, notifications := [(5, some 1)] }
        1 sampleConfig false).2) ∧
    sendNotificationToServer sampleEnv
        { popupServerCapabilities := [], notificationQueue := [],
          dbusServiceCapCacheDirty := false, notifications := [(5, some 1)] }
        1 sampleConfig false =
      (true, [Effect.callNotify 1
        { app_name := "app", replaces_id := 5, app_icon := "app", summary := "app",
          body := "", actions := [], hints := [("transient", QVariant.bool true)],
          expire_timeout := -1 }]) ∧
      (buildNotifyArgs sampleEnv
        { popupServerCapabilities := [], notificationQueue := [],
          dbusServiceCapCacheDirty := false, notifications := [(5, some 1)] }
        1 sampleConfig).replaces_id ≠ 0 := by
  decide

/-- What `sendNotificationToServer` does right about the replace identifier: it is `0`
whenever no identifier is bound to the handle, which is what a `notify` stopped for every
displayed handle would always find; and whenever a request is built with `update = true`, it
is not `0` and is bound to the handle in the hash. -/
theorem replace_identifier (env : Env) (d : NotifyByPopupPrivate) (notification : Nat)
    (notifyConfig : KNotifyConfig) :
    ((∀ e ∈ d.notifications, e.2 ≠ some notification) →
        (buildNotifyArgs env d notification notifyConfig).replaces_id = 0 ∧
        sendNotificationToServer env d notification notifyConfig false =
          (true, [Effect.callNotify notification
            (buildNotifyArgs env d notification notifyConfig)])) ∧
      (∀ args, sendNotificationToServer env d notification notifyConfig true =
          (true, [Effect.callNotify notification args]) →
        args.replaces_id ≠ 0 ∧ (args.replaces_id, some notification) ∈ d.notifications) ∧
      (d.notifications.key notification 0 ≠ 0 →
        sendNotificationToServer env d notification notifyConfig true =
          (true, [Effect.callNotify notification
            (buildNotifyArgs env d notification notifyConfig)])) := by
  refine ⟨?_, ?_, ?_⟩
  · intro h
    have hk := key_eq_default_of_unbound d.notifications notification 0 h
    simp [buildNotifyArgs, sendNotificationToServer, hk]
  · intro args hsend
    by_cases hk : d.notifications.key notification 0 = 0
    · simp [sendNotificationToServer, hk] at hsend
    · simp only [sendNotificationToServer, Bool.true_and, beq_iff_eq, hk, if_false,
        Prod.mk.injEq, true_and, List.cons.injEq, and_true, Effect.callNotify.injEq] at hsend
      have hid : args.replaces_id = d.notifications.key notification 0 := by
        rw [← hsend]; rfl
      rw [hid]
      exact ⟨hk, key_mem_of_ne_default d.notifications notification 0 hk⟩
  · intro hk
    simp [sendNotificationToServer, hk]

/-- The replace identifier on sample data: an update of the handle bound to `5`, and a
first request for a handle that is not bound. -/
theorem replace_identifier_witness :
    (buildNotifyArgs sampleEnv
        { popupServerCapabilities := [], notificationQueue := [],
          dbusServiceCapCacheDirty := false, notifications := [(5, some 1)] }
        2 sampleConfig).replaces_id = 0 ∧
      sendNotificationToServer sampleEnv
        { popupServerCapabilities := [], notificationQueue := [],
          dbusServiceCapCacheDirty := false, notifications := [(5, some 1)] }
        1 sampleConfig true =
      (true, [Effect.callNotify 1
        (buildNotifyArgs sampleEnv
          { popupServerCapabilities := [], notificationQueue := [],
            dbusServiceCapCacheDirty := false, notifications := [(5, some 1)] }
          1 sampleConfig)]) :=
  ⟨((replace_identifier sampleEnv
      { popupServerCapabilities := [], notificationQueue := [],
        dbusServiceCapCacheDirty := false, notifications := [(5, some 1)] }
      2 sampleConfig).1 (by decide)).1,
    (replace_identifier sampleEnv
      { popupServerCapabilities := [], notificationQueue := [],
        dbusServiceCapCacheDirty := false, notifications := [(5, some 1)] }
      1 sampleConfig).2.2 (by decide)⟩

/-! ## `close` and the hash -/

/-- When some entry points at the value and none of those has the key `0`, `key` does not
return `0`. -/
theorem key_ne_zero_of_bound (hash : NotificationHash) (value : Nat)
    (hb : ∃ e ∈ hash, e.2 = some value) (hz : ∀ e ∈ hash, e.2 = some value → e.1 ≠ 0) :
    hash.key value 0 ≠ 0 := by
  induction hash with
  | nil =>
      obtain ⟨e, he, _⟩ := hb
      exact absurd he (List.not_mem_nil e)
  | cons e rest ih =>
      obtain ⟨k, v⟩ := e
      by_cases hv : v = some value
      · simp only [NotificationHash.key, hv, if_true]
        exact hz (k, v) (List.mem_cons_self _ _) hv
      · simp only [NotificationHash.key, hv, if_false]
        apply ih
        · obtain ⟨e, he, hev⟩ := hb
          rcases List.mem_cons.mp he with rfl | hr
          · exact absurd hev hv
          · exact ⟨e, hr, hev⟩
        · intro e he
          exact hz e (List.mem_cons_of_mem _ he)

/-- C13, refuted as stated: the reply to the request for the handle at address `1` carries
the identifier `0`, which `onServerReply` binds like any other; the handle then has a bound
identifier, and `close` sends no `CloseNotification` for it, because `0` is what the lookup
by value returns for "not found". -/
theorem close_of_handle_bound_to_zero :
    (run sampleEnv init
        [Call.notify 1 sampleConfig, Call.onServerCapabilitiesReceived [],
          Call.onServerReply (some 1) 0]).1 =
      { popupServerCapabilities := [], notificationQueue := [],
        dbusServiceCapCacheDirty := false, notifications := [(0, some 1)] } ∧
      NotificationHash.find [(0, some 1)] 0 = some (some 1) ∧
      close
        { popupServerCapabilities := [], notificationQueue := [],
          dbusServiceCapCacheDirty := false, notifications := [(0, some 1)] } 1 =
        ({ popupServerCapabilities := [], notificationQueue := [],
           dbusServiceCapCacheDirty := false, notifications := [(0, some 1)] }, []) ∧
      (close
        { popupServerCapabilities := [], notificationQueue := [],
          dbusServiceCapCacheDirty := false, notifications := [(0, some 1)] } 1).2 ≠
        [Effect.sendCloseNotification 0] := by
  decide

/-- C13, amended: `close` leaves the hash exactly as it was, whether or not the handle has
an identifier; for a handle no entry points at it sends nothing; for a handle that has an
identifier, none of its identifiers being `0`, it sends exactly one `CloseNotification`,
carrying an identifier bound to the handle; and whenever the lookup by value returns `0` for
the handle, it sends nothing and changes nothing. -/
theorem close_keeps_hash (d : NotifyByPopupPrivate) (notification : Nat) :
    (close d notification).1.notifications = d.notifications ∧
      (close d notification).1.popupServerCapabilities = d.popupServerCapabilities ∧
      (close d notification).1.dbusServiceCapCacheDirty = d.dbusServiceCapCacheDirty ∧
      ((∀ e ∈ d.notifications, e.2 ≠ some notification) → (close d notification).2 = []) ∧
      ((∃ e ∈ d.notifications, e.2 = some notification) →
        (∀ e ∈ d.notifications, e.2 = some notification → e.1 ≠ 0) →
        ∃ id, (id, some notification) ∈ d.notifications ∧
          (close d notification).2 = [Effect.sendCloseNotification id]) ∧
      (d.notifications.key notification 0 = 0 → close d notification = (d, [])) := by
  refine ⟨?_, ?_, ?_, ?_, ?_, ?_⟩
  · by_cases hk : d.notifications.key notification 0 = 0 <;> simp [close, hk]
  · by_cases hk : d.notifications.key notification 0 = 0 <;> simp [close, hk]
  · by_cases hk : d.notifications.key notification 0 = 0 <;> simp [close, hk]
  · intro h
    rw [close_unbound_changes_nothing d notification h]
  · intro hb hz
    have hk := key_ne_zero_of_bound d.notifications notification hb hz
    refine ⟨d.notifications.key notification 0,
      key_mem_of_ne_default d.notifications notification 0 hk, ?_⟩
    simp [close, hk]
  · intro hk
    simp [close, hk]

/-- A concrete instance of `close`: the handle at `1` is bound to `5` only, the handle at
`3` is not bound. -/
theorem close_keeps_hash_witness :
    (close
        { popupServerCapabilities := [], notificationQueue := [],
          dbusServiceCapCacheDirty := false, notifications := [(5, some 1), (6, some 2)] }
        1) =
      ({ popupServerCapabilities := [], notificationQueue := [],
         dbusServiceCapCacheDirty := false, notifications := [(5, some 1), (6, some 2)] },
       [Effect.sendCloseNotification 5]) ∧
      (close
        { popupServerCapabilities := [], notificationQueue := [],
          dbusServiceCapCacheDirty := false, notifications := [(5, some 1), (6, some 2)] }
        3).2 = [] ∧
      (∃ id, (id, some 1) ∈ ([(5, some 1), (6, some 2)] : NotificationHash) ∧
        (close
          { popupServerCapabilities := [], notificationQueue := [],
            dbusServiceCapCacheDirty := false, notifications := [(5, some 1), (6, some 2)] }
          1).2 = [Effect.sendCloseNotification id]) :=
  ⟨by decide,
    (close_keeps_hash
      { popupServerCapabilities := [], notificationQueue := [],
        dbusServiceCapCacheDirty := false, notifications := [(5, some 1), (6, some 2)] }
      3).2.2.2.1 (by decide),
    (close_keeps_hash
      { popupServerCapabilities := [], notificationQueue := [],
        dbusServiceCapCacheDirty := false, notifications := [(5, some 1), (6, some 2)] }
      1).2.2.2.2.1 ⟨(5, some 1), by decide, rfl⟩ (by decide)⟩

/-! ## The reply of the server -/

/-- After `insert`, `find` returns the inserted value. -/
theorem find_insert_self (hash : NotificationHash) (key : Nat) (value : Option Nat) :
    (hash.insert key value).find key = some value := by
  induction hash with
  | nil => simp [NotificationHash.insert, NotificationHash.find]
  | cons e rest ih =>
      obtain ⟨k, v⟩ := e
      by_cases hk : k = key
      · simp [NotificationHash.insert, NotificationHash.find, hk]
      · simp [NotificationHash.insert, NotificationHash.find, hk, ih]

/-- An `insert` leaves what `find` returns for every other key. -/
theorem find_insert_other (hash : NotificationHash) (key other : Nat) (value : Option Nat)
    (h : other ≠ key) : (hash.insert key value).find other = hash.find other := by
  induction hash with
  | nil => simp [NotificationHash.insert, NotificationHash.find, Ne.symm h]
  | cons e rest ih =>
      obtain ⟨k, v⟩ := e
      by_cases hk : k = key
      · subst hk
        simp [NotificationHash.insert, NotificationHash.find, Ne.symm h]
      · by_cases hko : k = other
        · subst hko
          simp [NotificationHash.insert, NotificationHash.find, hk]
        · simp [NotificationHash.insert, NotificationHash.find, hk, hko, ih]

/-- C14: a reply correlated to the live handle `p` with the identifier `replyId` leaves a
hash in which `replyId` maps to `p`, whether the key was there before or not, and every
other key maps to what it did; the other data members keep their values.  A reply whose
notification object is null changes nothing at all. -/
theorem server_reply_binds (d : NotifyByPopupPrivate) (p replyId : Nat) :
    (onServerReply d (some p) replyId).1.notifications.find replyId = some (some p) ∧
      (∀ other, other ≠ replyId →
        (onServerReply d (some p) replyId).1.notifications.find other =
          d.notifications.find other) ∧
      (onServerReply d (some p) replyId).1.notificationQueue = d.notificationQueue ∧
      (onServerReply d (some p) replyId).1.popupServerCapabilities =
        d.popupServerCapabilities ∧
      (onServerReply d (some p) replyId).1.dbusServiceCapCacheDirty =
        d.dbusServiceCapCacheDirty ∧
      (onServerReply d (some p) replyId).2 = [] ∧
      onServerReply d none replyId = (d, []) := by
  refine ⟨?_, ?_, rfl, rfl, rfl, rfl, rfl⟩
  · exact find_insert_self d.notifications replyId (some p)
  · intro other ho
    exact find_insert_other d.notifications replyId other (some p) ho

/-! ## Signals for an unknown identifier -/

/-- C15: for an identifier that is not a key of the hash, `onNotificationActionInvoked` with
any key and `onNotificationClosed` with any reason leave the whole state as it was and emit
nothing. -/
theorem unknown_identifier_ignored (env : Env) (d : NotifyByPopupPrivate)
    (notificationId reason : Nat) (actionKey : String)
    (h : d.notifications.contains notificationId = false) :
    onNotificationActionInvoked env d notificationId actionKey = (d, []) ∧
      onNotificationClosed d notificationId reason = (d, []) := by
  have hf : d.notifications.find notificationId = none := by
    simpa [NotificationHash.contains] using h
  simp [onNotificationActionInvoked, onNotificationClosed, hf]

/-- A concrete instance of the ignored signals: the identifier `9` of another client. -/
theorem unknown_identifier_ignored_witness :
    NotificationHash.contains [(5, some 1)] 9 = false ∧
      onNotificationActionInvoked sampleEnv
        { popupServerCapabilities := [], notificationQueue := [],
          dbusServiceCapCacheDirty := false, notifications := [(5, some 1)] } 9 "default" =
        ({ popupServerCapabilities := [], notificationQueue := [],
           dbusServiceCapCacheDirty := false, notifications := [(5, some 1)] }, []) ∧
      onNotificationClosed
        { popupServerCapabilities := [], notificationQueue := [],
          dbusServiceCapCacheDirty := false, notifications := [(5, some 1)] } 9 2 =
        ({ popupServerCapabilities := [], notificationQueue := [],
           dbusServiceCapCacheDirty := false, notifications := [(5, some 1)] }, []) :=
  ⟨by decide,
    unknown_identifier_ignored sampleEnv
      { popupServerCapabilities := [], notificationQueue := [],
        dbusServiceCapCacheDirty := false, notifications := [(5, some 1)] }
      9 2 "default" (by decide)⟩

/-! ## How often a handle is queued -/

/-- One call adds at most one request for a handle to the queue, and only a `notify` for
that handle adds one. -/
theorem step_queue_count (env : Env) (d : NotifyByPopupPrivate) (c : Call) (h : Nat) :
    (step env d c).1.notificationQueue.countP (fun item => item.1 = h) ≤
      d.notificationQueue.countP (fun item => item.1 = h) +
        (if Call.isNotifyFor h c then 1 else 0) := by
  cases c with
  | notify n cfg =>
      simp only [step, notify, Call.isNotifyFor]
      by_cases hc : d.notifications.contains (toUInt32 (env.object n).id) = true
      · simp [hc]
      · by_cases hd : d.dbusServiceCapCacheDirty = true
        · simp only [hc, hd, Bool.false_eq_true, if_false, if_true, List.countP_append]
          by_cases hn : n = h <;> simp [hn, List.countP_cons]
        · simp only [hc, hd, Bool.false_eq_true, if_false]
          split <;> simp
  | update n cfg => simp [step, update]
  | close n =>
      simp only [step, close, Call.isNotifyFor]
      by_cases hk : d.notifications.key n 0 = 0
      · simp [hk]
      · simp only [hk, if_false, Bool.false_eq_true, Nat.add_zero]
        exact List.Sublist.countP_le _ (List.filter_sublist _)
  | onNotificationActionInvoked i k =>
      simp only [step, onNotificationActionInvoked, Call.isNotifyFor]
      cases hf : d.notifications.find i with
      | none => simp
      | some q =>
          cases q with
          | none => simp
          | some p => by_cases hk : k = "default" <;> simp [hk]
  | onNotificationClosed i r =>
      simp only [step, onNotificationClosed, Call.isNotifyFor]
      cases hf : d.notifications.find i with
      | none => simp
      | some q => cases q <;> simp
  | onServerReply n i => cases n <;> simp [step, onServerReply, Call.isNotifyFor]
  | onServerCapabilitiesReceived caps => simp [step, onServerCapabilitiesReceived]

/-- Along a run, the requests queued for a handle grow by at most the number of `notify`
calls made for it. -/
theorem run_queue_count (env : Env) (h : Nat) (cs : List Call) :
    ∀ d : NotifyByPopupPrivate,
      (run env d cs).1.notificationQueue.countP (fun item => item.1 = h) ≤
        d.notificationQueue.countP (fun item => item.1 = h) +
          cs.countP (Call.isNotifyFor h) := by
  induction cs with
  | nil => intro d; simp [run]
  | cons c rest ih =>
      intro d
      have h1 := step_queue_count env d c h
      have h2 := ih (step env d c).1
      simp only [run, List.countP_cons]
      by_cases hc : Call.isNotifyFor h c = true
      · simp only [hc, if_true] at h1 ⊢
        omega
      · simp only [hc, Bool.false_eq_true, if_false] at h1 ⊢
        omega

/-- C16, refuted as stated: two `notify` calls for the handle at address `1`, made from the
initial state while the capabilities are unknown, leave two requests for it in the queue. -/
theorem queue_holds_handle_twice :
    (run sampleEnv init
        [Call.notify 1 sampleConfig, Call.notify 1 sampleConfig]).1.notificationQueue =
      [(1, sampleConfig), (1, sampleConfig)] ∧
      ¬ (run sampleEnv init
          [Call.notify 1 sampleConfig, Call.notify 1 sampleConfig]).1.notificationQueue.countP
            (fun item => item.1 = 1) ≤ 1 := by
  decide

/-- C16, amended: in every state reached from the initial one by a sequence of calls, the
queue holds for any handle at most as many requests as the sequence has `notify` calls for
that handle; so at most one when `notify` was called at most once for it. -/
theorem queue_count_bounded_by_notify_calls (env : Env) (cs : List Call) (h : Nat) :
    (run env init cs).1.notificationQueue.countP (fun item => item.1 = h) ≤
      cs.countP (Call.isNotifyFor h) := by
  have hrun := run_queue_count env h cs init
  simpa [init] using hrun

/-! ## The capability cache stays fresh -/

/-- With a fresh cache, `notify` changes no data member and does not ask for the
capabilities. -/
theorem notify_fresh (env : Env) (d : NotifyByPopupPrivate) (n : Nat) (c : KNotifyConfig)
    (hd : d.dbusServiceCapCacheDirty = false) :
    (notify env d n c).1 = d ∧ (notify env d n c).2.filter Effect.isGetCapabilities = [] := by
  unfold notify
  by_cases hc : d.notifications.contains (toUInt32 (env.object n).id) = true
  · simp [hc, Effect.isGetCapabilities]
  · simp [hc, hd, sendNotificationToServer, Effect.isGetCapabilities]

/-- With a fresh cache, the replay loop keeps the cache fresh and does not ask for the
capabilities. -/
theorem replayQueue_fresh (env : Env) (remaining : Nat) :
    ∀ (i : Nat) (d : NotifyByPopupPrivate), d.dbusServiceCapCacheDirty = false →
      (replayQueue env remaining i d).1.dbusServiceCapCacheDirty = false ∧
        (replayQueue env remaining i d).2.filter Effect.isGetCapabilities = [] := by
  induction remaining with
  | zero => intro i d hd; simp [replayQueue, hd]
  | succ r ih =>
      intro i d hd
      simp only [replayQueue]
      cases hq : d.notificationQueue.get? i with
      | none => simp [hd]
      | some item =>
          obtain ⟨hs, he⟩ := notify_fresh env d item.1 item.2 hd
          have hrec := ih (i + 1) (notify env d item.1 item.2).1 (by rw [hs]; exact hd)
          simp only [List.filter_append, he, List.nil_append]
          exact hrec

/-- The function `onServerCapabilitiesReceived` leaves the cache fresh and does not ask for
the capabilities. -/
theorem onServerCapabilitiesReceived_fresh (env : Env) (d : NotifyByPopupPrivate)
    (caps : List String) :
    (onServerCapabilitiesReceived env d caps).1.dbusServiceCapCacheDirty = false ∧
      (onServerCapabilitiesReceived env d caps).2.filter Effect.isGetCapabilities = [] := by
  simp only [onServerCapabilitiesReceived]
  exact replayQueue_fresh env _ 0 _ rfl

/-- With a fresh cache, no call makes the cache dirty or asks for the capabilities. -/
theorem step_fresh (env : Env) (d : NotifyByPopupPrivate) (c : Call)
    (hd : d.dbusServiceCapCacheDirty = false) :
    (step env d c).1.dbusServiceCapCacheDirty = false ∧
      (step env d c).2.filter Effect.isGetCapabilities = [] := by
  cases c with
  | notify n cfg =>
      obtain ⟨hs, he⟩ := notify_fresh env d n cfg hd
      exact ⟨by simp only [step, hs, hd], he⟩
  | update n cfg =>
      simp only [step, update, sendNotificationToServer]
      refine ⟨hd, ?_⟩
      split <;> simp [Effect.isGetCapabilities]
  | close n =>
      simp only [step, close]
      by_cases hk : d.notifications.key n 0 = 0 <;> simp [hk, hd, Effect.isGetCapabilities]
  | onNotificationActionInvoked i k =>
      simp only [step, onNotificationActionInvoked]
      cases hf : d.notifications.find i with
      | none => simp [hd]
      | some q =>
          cases q with
          | none => simp [hd]
          | some p => by_cases hk : k = "default" <;> simp [hk, hd, Effect.isGetCapabilities]
  | onNotificationClosed i r =>
      simp only [step, onNotificationClosed]
      cases hf : d.notifications.find i with
      | none => simp [hd]
      | some q =>
          cases q with
          | none => simp [hd]
          | some p => by_cases hr : r = 2 <;> simp [hr, hd, Effect.isGetCapabilities]
  | onServerReply n i => cases n <;> simp [step, onServerReply, hd]
  | onServerCapabilitiesReceived caps => exact onServerCapabilitiesReceived_fresh env d caps

/-- With a fresh cache, no run makes the cache dirty or asks for the capabilities. -/
theorem run_fresh (env : Env) (cs : List Call) :
    ∀ d : NotifyByPopupPrivate, d.dbusServiceCapCacheDirty = false →
      (run env d cs).1.dbusServiceCapCacheDirty = false ∧
        (run env d cs).2.filter Effect.isGetCapabilities = [] := by
  induction cs with
  | nil => intro d hd; simp [run, hd]
  | cons c rest ih =>
      intro d hd
      obtain ⟨hs, he⟩ := step_fresh env d c hd
      obtain ⟨hs2, he2⟩ := ih (step env d c).1 hs
      simp only [run, List.filter_append, he, he2, hs2]
      simp

/-- C17: the cache is dirty in the initial state; and from any state, once
`onServerCapabilitiesReceived` has run, the cache is fresh after every further sequence of
calls (`notify`, `update`, `close`, the three signals and replies, a further
`onServerCapabilitiesReceived`), and neither `onServerCapabilitiesReceived` itself nor any
of those calls issues a `GetCapabilities` request. -/
theorem cache_stays_fresh (env : Env) (d : NotifyByPopupPrivate) (caps : List String)
    (cs : List Call) :
    init.dbusServiceCapCacheDirty = true ∧
      (run env d (Call.onServerCapabilitiesReceived caps :: cs)).1.dbusServiceCapCacheDirty
        = false ∧
      (run env d (Call.onServerCapabilitiesReceived caps :: cs)).2.filter
        Effect.isGetCapabilities = [] := by
  obtain ⟨hs, he⟩ := onServerCapabilitiesReceived_fresh env d caps
  obtain ⟨hs2, he2⟩ := run_fresh env cs (onServerCapabilitiesReceived env d caps).1 hs
  refine ⟨rfl, ?_, ?_⟩
  · simpa only [run, step] using hs2
  · simp only [run, step, List.filter_append, he, he2]
    rfl

/-! ## The hints of the handle -/

/-- A map without the key has no value for it. -/
theorem value_eq_none_of_not_mem (m : QVariantMap) (key : String)
    (h : key ∉ m.map Prod.fst) : QVariantMap.value m key = none := by
  induction m with
  | nil => rfl
  | cons e rest ih =>
      obtain ⟨k, w⟩ := e
      simp only [List.map_cons, List.mem_cons, not_or] at h
      simp [QVariantMap.value, Ne.symm h.1, ih h.2]

/-- After the merge, a key of the merged hints has the value the hints give it. -/
theorem value_mergeHints_of_present (hints : QVariantMap) (key : String) (v : QVariant) :
    ∀ m : QVariantMap, (hints.map Prod.fst).Nodup → QVariantMap.value hints key = some v →
      QVariantMap.value (mergeHints m hints) key = some v := by
  induction hints with
  | nil => intro m _ h; simp [QVariantMap.value] at h
  | cons e rest ih =>
      intro m hnd h
      obtain ⟨k, w⟩ := e
      simp only [List.map_cons, List.nodup_cons] at hnd
      by_cases hk : k = key
      · subst hk
        simp only [QVariantMap.value, if_true, Option.some.injEq] at h
        subst h
        rw [mergeHints, value_mergeHints_of_absent rest k _ (value_eq_none_of_not_mem rest k hnd.1),
          value_set, if_pos rfl]
      · simp only [QVariantMap.value, hk, if_false] at h
        rw [mergeHints]
        exact ih _ hnd.2 h

/-- C18, refuted as stated: a handle that carries a pixmap and a hint of its own under the
key `image_data` gets the encoded pixmap under that key, not its own value; the image is
assigned after the handle's hints are merged. -/
theorem image_overrides_handle_hint :
    QVariantMap.value (pictureEnv.object 1).hints "image_data" =
        some (QVariant.string "mine") ∧
      QVariantMap.value (buildNotifyArgs pictureEnv init 1 sampleConfig).hints "image_data" =
        some (QVariant.image [137, 80, 78, 71]) ∧
      QVariantMap.value (buildNotifyArgs pictureEnv init 1 sampleConfig).hints "image_data" ≠
        QVariantMap.value (pictureEnv.object 1).hints "image_data" := by
  decide

/-- C18, amended: for every key `k` that the handle's hints (a map, so without a repeated
key) give the value `v`, the hints map of the `Notify` request maps `k` to `v`, whatever the
dispatcher computed for `k` before the merge, except for the key `image_data` of a handle
that carries a pixmap. -/
theorem handle_hints_take_precedence (env : Env) (d : NotifyByPopupPrivate) (notification : Nat)
    (notifyConfig : KNotifyConfig) (k : String) (v : QVariant)
    (hmap : ((env.object notification).hints.map Prod.fst).Nodup)
    (hkv : QVariantMap.value (env.object notification).hints k = some v)
    (himg : (env.object notification).pixmap = none ∨ k ≠ "image_data") :
    QVariantMap.value (buildNotifyArgs env d notification notifyConfig).hints k = some v := by
  simp only [buildNotifyArgs, buildHintsMap]
  cases hp : (env.object notification).pixmap with
  | none => exact value_mergeHints_of_present _ k v _ hmap hkv
  | some bytes =>
      have hne : k ≠ "image_data" := by
        rcases himg with h | h
        · rw [hp] at h; exact absurd h (by simp)
        · exact h
      simp only [value_set, if_neg (Ne.symm hne)]
      exact value_mergeHints_of_present _ k v _ hmap hkv

/-- A concrete instance of the precedence: the handle's own `x-kde-appname` replaces the
application name the dispatcher had put there. -/
theorem handle_hints_take_precedence_witness :
    ((pictureEnv.object 1).hints.map Prod.fst).Nodup ∧
      QVariantMap.value (pictureEnv.object 1).hints "x-kde-appname" =
        some (QVariant.string "other") ∧
      (pictureEnv.object 1).appName = "app" ∧
      QVariantMap.value (buildNotifyArgs pictureEnv init 1 sampleConfig).hints "x-kde-appname" =
        some (QVariant.string "other") :=
  ⟨by decide, by decide, by decide,
    handle_hints_take_precedence pictureEnv init 1 sampleConfig "x-kde-appname"
      (QVariant.string "other") (by decide) (by decide) (Or.inr (by decide))⟩

/-! ## Persistence -/

/-- C19: the expiry timeout of the `Notify` request is `0` when the handle's flags contain
`Persistent` and `-1` otherwise; and when the handle's own hints have no key `transient`,
the hints map has `transient = true` exactly when the flags do not contain `Persistent`, and
no such key when they do. -/
theorem timeout_and_transient (env : Env) (d : NotifyByPopupPrivate) (notification : Nat)
    (notifyConfig : KNotifyConfig)
    (h : QVariantMap.value (env.object notification).hints "transient" = none) :
    (buildNotifyArgs env d notification notifyConfig).expire_timeout =
        (if (env.object notification).flags &&& env.Persistent ≠ 0 then 0 else -1) ∧
      QVariantMap.value (buildNotifyArgs env d notification notifyConfig).hints "transient" =
        (if (env.object notification).flags &&& env.Persistent ≠ 0 then none
          else some (QVariant.bool true)) ∧
      (QVariantMap.value (buildNotifyArgs env d notification notifyConfig).hints "transient" =
          some (QVariant.bool true) ↔
        ¬ ((env.object notification).flags &&& env.Persistent ≠ 0)) := by
  have himg : ∀ m : QVariantMap,
      QVariantMap.value (match (env.object notification).pixmap with
        | some pixmapData => QVariantMap.set m "image_data" (env.variantForImage pixmapData)
        | none => m) "transient" = QVariantMap.value m "transient" := by
    intro m
    cases (env.object notification).pixmap with
    | none => rfl
    | some b => simp only [value_set]; rw [if_neg (by decide)]
  have hval : QVariantMap.value (buildNotifyArgs env d notification notifyConfig).hints
      "transient" =
        (if (env.object notification).flags &&& env.Persistent ≠ 0 then none
          else some (QVariant.bool true)) := by
    simp only [buildNotifyArgs, buildHintsMap]
    rw [himg, value_mergeHints_of_absent _ _ _ h]
    by_cases hp : (env.object notification).flags &&& env.Persistent = 0 <;>
      simp [hp, value_set, QVariantMap.value,
        apply_ite (fun m => QVariantMap.value m "transient")]
  refine ⟨rfl, hval, ?_⟩
  rw [hval]
  by_cases hp : (env.object notification).flags &&& env.Persistent = 0 <;> simp [hp]

/-- A concrete instance of the timeout: a notification without the `Persistent` flag. -/
theorem timeout_and_transient_witness :
    QVariantMap.value (sampleEnv.object 1).hints "transient" = none ∧
      (buildNotifyArgs sampleEnv init 1 sampleConfig).expire_timeout = -1 ∧
      QVariantMap.value (buildNotifyArgs sampleEnv init 1 sampleConfig).hints "transient" =
        some (QVariant.bool true) :=
  ⟨by decide, by decide,
    (timeout_and_transient sampleEnv init 1 sampleConfig (by decide)).2.1⟩

/-! ## The guard of `notify`, once more -/

/-- C20: there is a state reached from the initial one and a handle that was never
displayed (no entry of the hash points at it) for which `notify` sends nothing, queues
nothing and emits `finished`: the handle's local id is a key of the hash, where it is the
server identifier of another handle. -/
theorem guard_hits_foreign_identifier :
    ∃ (cs : List Call) (h other : Nat),
      other ≠ h ∧
      (∀ e ∈ (run sampleEnv init cs).1.notifications, e.2 ≠ some h) ∧
      (run sampleEnv init cs).1.notifications.find (toUInt32 (sampleEnv.object h).id) =
        some (some other) ∧
      notify sampleEnv (run sampleEnv init cs).1 h sampleConfig =
        ((run sampleEnv init cs).1, [Effect.finished h]) :=
  ⟨[Call.notify 2 sampleConfig, Call.onServerCapabilitiesReceived [],
      Call.onServerReply (some 2) 7], 1, 2, by decide⟩

end KNotifications
